import Mathlib

/-!
# Verification of the fastcert certificate tool core

Shallow embedding of the fastcert Rust sources (host classification and
hostname validation from `src/cert.rs`, CA state handling from `src/ca.rs`,
trust-store dispatch and drivers from `src/truststore/`), together with
theorems settling the specification claims about them.

Strings are modelled as `List Char`.  The regular expression used by
`validate_hostname` is compiled to a structural matcher over character
lists; its `(?i)` flag is modelled as ASCII case insensitivity, which is
exact on every input relevant here.
-/

namespace Fastcert

/-- Strings from the Rust sources, modelled as lists of characters. -/
abbrev Str := List Char

/-- The error enum of `src/error.rs` (payloads kept as strings; the
`Io` payload is reduced to its message text). -/
inductive Error where
  | Io (msg : Str)
  | Certificate (msg : Str)
  | CARootNotFound
  | CAKeyMissing
  | TrustStore (msg : Str)
  | InvalidHostname (host : Str)
  | CommandFailed (msg : Str)
deriving DecidableEq, Repr

/-! ## Hostname validation (`validate_hostname`, src/cert.rs lines 62-71)

The Rust code matches the input against
`(?i)^(\*\.)?[0-9a-z_-]([0-9a-z._-]*[0-9a-z_-])?$`.
`isLabelChar` is the class `[0-9a-z_-]` under ASCII case folding,
`isInnerChar` the class `[0-9a-z._-]`. -/

/-- Character class `[0-9a-z_-]` of the hostname regex, with the `(?i)`
flag modelled as ASCII case folding. -/
def isLabelChar (c : Char) : Bool :=
  (('0' ≤ c && c ≤ '9') || ('a' ≤ c && c ≤ 'z') || ('A' ≤ c && c ≤ 'Z')
    || c = '_' || c = '-')

/-- Character class `[0-9a-z._-]` of the hostname regex: `isLabelChar`
plus the dot. -/
def isInnerChar (c : Char) : Bool :=
  isLabelChar c || c = '.'

/-- Matcher for the regex fragment `[0-9a-z._-]*[0-9a-z_-]`: a nonempty
tail whose last character is in the label class and whose earlier
characters are in the inner class. -/
def matchTail : Str → Bool
  | [] => false
  | [c] => isLabelChar c
  | c :: c' :: cs => isInnerChar c && matchTail (c' :: cs)

/-- Matcher for the regex core `[0-9a-z_-]([0-9a-z._-]*[0-9a-z_-])?`. -/
def matchCore : Str → Bool
  | [] => false
  | [c] => isLabelChar c
  | c :: c' :: cs => isLabelChar c && matchTail (c' :: cs)

/-- Matcher for the full anchored regex `^(\*\.)?core$`: either the
optional `*.` prefix is consumed and the rest matches the core, or the
whole input matches the core. -/
def matchHostname (l : Str) : Bool :=
  (match l with
   | '*' :: '.' :: rest => matchCore rest
   | _ => false)
  || matchCore l

/-- `validate_hostname` from src/cert.rs: `Ok(())` when the regex
matches, otherwise `Err(Error::InvalidHostname(input))`. -/
def validateHostname (hostname : Str) : Except Error Unit :=
  if matchHostname hostname then .ok () else .error (.InvalidHostname hostname)

/-! ## Host classification (`HostType::parse`, src/cert.rs lines 41-59) -/

/-- Model of `std::net::IpAddr` values produced by the standard-library
IP parser. -/
inductive IpAddr where
  | V4 (a b c d : Nat)
  | V6 (segments : List Nat)
deriving DecidableEq, Repr

/-- The `HostType` enum of src/cert.rs. -/
inductive HostType where
  | DnsName (s : Str)
  | IpAddress (ip : IpAddr)
  | Email (s : Str)
  | Uri (s : Str)
deriving DecidableEq, Repr

/-- Does `pat` occur at the start of the second argument? -/
def startsWith : Str → Str → Bool
  | [], _ => true
  | _ :: _, [] => false
  | p :: ps, c :: cs => p == c && startsWith ps cs

/-- Does `pat` occur as a contiguous substring?  Models Rust's
`str::contains` on a string pattern. -/
def containsSub (pat : Str) : Str → Bool
  | [] => pat.isEmpty
  | c :: cs => startsWith pat (c :: cs) || containsSub pat cs

/-- `HostType::parse` from src/cert.rs.  The standard-library IP parser
(`host.parse::<IpAddr>()`) is an external collaborator and is abstracted
as the `ipParse` argument; the four-branch dispatch is translated
directly. -/
def hostTypeParse (ipParse : Str → Option IpAddr) (host : Str) :
    Except Error HostType :=
  match ipParse host with
  | some ip => .ok (.IpAddress ip)
  | none =>
    if host.contains '@' && host.contains '.' then .ok (.Email host)
    else if containsSub "://".toList host then .ok (.Uri host)
    else .ok (.DnsName host)

/-- Spec-side classification, written from the spec's variant rules:
IP literal → IP address; contains `@` and `.` → email; contains `://`
→ URI; else → DNS name. -/
def specClassify (ipParse : Str → Option IpAddr) (host : Str) : HostType :=
  match ipParse host with
  | some ip => .IpAddress ip
  | none =>
    if '@' ∈ host ∧ '.' ∈ host then .Email host
    else if containsSub "://".toList host then .Uri host
    else .DnsName host

/-! ## Enabled trust stores (`get_enabled_stores` / `is_store_enabled`,
src/truststore/mod.rs lines 8-25)

The `TRUST_STORES` environment variable is modelled as an
`Option Str`.  Rust's `str::trim` and `to_lowercase` are modelled over
ASCII, which is exact for the store names involved. -/

/-- Rust `str::trim`: drop whitespace from both ends. -/
def trimStr (s : Str) : Str :=
  ((s.dropWhile Char.isWhitespace).reverse.dropWhile Char.isWhitespace).reverse

/-- Rust `str::to_lowercase`, modelled over ASCII. -/
def lowerStr (s : Str) : Str :=
  s.map Char.toLower

/-- Rust `str::split(',')`: `n` commas yield `n + 1` pieces, empty
pieces included. -/
def splitComma : Str → List Str
  | [] => [[]]
  | c :: cs =>
    if c = ',' then [] :: splitComma cs
    else
      match splitComma cs with
      | [] => [[c]]
      | p :: ps => (c :: p) :: ps

/-- `get_enabled_stores` from src/truststore/mod.rs: with `TRUST_STORES`
unset, the default `["system", "nss", "java"]`; otherwise the
comma-separated pieces trimmed, lowercased, and with empty entries
dropped. -/
def getEnabledStores (env : Option Str) : List Str :=
  match env with
  | some v => ((splitComma v).map fun s => lowerStr (trimStr s)).filter fun s => !s.isEmpty
  | none => ["system".toList, "nss".toList, "java".toList]

/-- `is_store_enabled` from src/truststore/mod.rs: membership of the
lowercased store name in the enabled list. -/
def isStoreEnabled (env : Option Str) (store : Str) : Bool :=
  (getEnabledStores env).contains (lowerStr store)

/-! ## Trust-store install dispatch (`install_linux` / `install_macos`,
src/truststore/mod.rs lines 73-107 and 136-170)

The external effects are abstracted as a `DispatchWorld`: the
environment, the outcome of the system driver's `install()`, the outcome
of `get_ca()?.unique_name()?`, and the availability and install outcomes
of the NSS and Java drivers. -/

structure DispatchWorld where
  /-- The `TRUST_STORES` environment variable. -/
  env : Option Str
  /-- Outcome of the system store driver's `install()`. -/
  sysInstall : Except Error Unit
  /-- Outcome of `crate::ca::get_ca()?.unique_name()?`. -/
  caUnique : Except Error Str
  /-- `NssTrustStore::is_available() && NssTrustStore::has_certutil()`. -/
  nssAvailable : Bool
  /-- Outcome of the NSS driver's `install()`. -/
  nssInstall : Except Error Unit
  /-- `JavaTrustStore::is_available() && JavaTrustStore::has_keytool()`. -/
  javaAvailable : Bool
  /-- Outcome of the Java driver's `install()`. -/
  javaInstall : Except Error Unit

/-- The optional-target phase shared by `install_linux` and
`install_macos`: resolve the CA unique name (propagating its failure),
then attempt NSS and Java when enabled and available, downgrading their
failures to warnings (second component). -/
def installOptionalStores (w : DispatchWorld) : Except Error Unit × List Str :=
  match w.caUnique with
  | .error e => (.error e, [])
  | .ok _ =>
    let nssWarnings :=
      if isStoreEnabled w.env "nss".toList && w.nssAvailable then
        match w.nssInstall with
        | .error _ => ["nss".toList]
        | .ok () => []
      else []
    let javaWarnings :=
      if isStoreEnabled w.env "java".toList && w.javaAvailable then
        match w.javaInstall with
        | .error _ => ["java".toList]
        | .ok () => []
      else []
    (.ok (), nssWarnings ++ javaWarnings)

/-- `install_linux` from src/truststore/mod.rs: when the `system` store
is enabled, the system driver's failure is propagated via `?`;
afterwards the NSS and Java targets are attempted with their failures
reduced to warnings. -/
def installLinux (w : DispatchWorld) : Except Error Unit × List Str :=
  if isStoreEnabled w.env "system".toList then
    match w.sysInstall with
    | .error e => (.error e, [])
    | .ok () => installOptionalStores w
  else installOptionalStores w

/-- `install_macos` from src/truststore/mod.rs: under the abstraction of
`DispatchWorld` its body coincides with `install_linux` (only the driver
constructed for the system store and the warning texts differ). -/
def installMacos (w : DispatchWorld) : Except Error Unit × List Str :=
  installLinux w

/-! ## CA file layout and readiness (src/ca.rs) -/

/-- `ROOT_CERT_FILE` from src/ca.rs. -/
def ROOT_CERT_FILE : Str := "rootCA.pem".toList

/-- `ROOT_KEY_FILE` from src/ca.rs. -/
def ROOT_KEY_FILE : Str := "rootCA-key.pem".toList

/-- `CertificateAuthority::cert_path`: the root directory joined with the
fixed certificate file name. -/
def caCertPath (rootPath : Str) : Str := rootPath ++ '/' :: ROOT_CERT_FILE

/-- `CertificateAuthority::key_path`: the root directory joined with the
fixed key file name. -/
def caKeyPath (rootPath : Str) : Str := rootPath ++ '/' :: ROOT_KEY_FILE

/-- Possible outcomes of the CA Manager's readiness operation. -/
inductive ReadyOutcome where
  /-- Both files were present and were loaded; nothing was regenerated. -/
  | loaded
  /-- Neither file was present; a fresh key and self-signed root
  certificate were created and persisted. -/
  | created
  /-- The half-initialized state was detected and reported. -/
  | failed (e : Error)
deriving DecidableEq, Repr

/-- Modelled from the spec: `ensure_ready` is absent from src/src/ca.rs
(the file holds only the path and existence helpers `cert_path`,
`key_path`, `cert_exists`, `key_exists`).  Spec §4.1: if both files
exist, load them; full absence triggers creation; it fails with
`CARootNotFound`/`CAKeyMissing` only when exactly one of the two files
is present.  The file system is abstracted as the predicate `fs`. -/
def ensureReady (rootPath : Str) (fs : Str → Bool) : ReadyOutcome :=
  let certPresent := fs (caCertPath rootPath)
  let keyPresent := fs (caKeyPath rootPath)
  if certPresent && keyPresent then .loaded
  else if !certPresent && !keyPresent then .created
  else if certPresent && !keyPresent then .failed .CAKeyMissing
  else .failed .CARootNotFound

/-! ## Default output file naming

The certificate-generation code (`generate_certificate`) is absent from
src/; the naming rule is modelled from spec §4.3 and is exercised by the
repository's tests (tests/e2e.rs, naming scenarios). -/

/-- Modelled from the spec: the base name is the first host "with
characters unsafe for file names replaced (wildcard label `*.` rendered
as `_wildcard.`)".  The wildcard rendering is the only replacement the
spec names concretely; the remaining characters of a validated host are
filename-safe and pass through. -/
def sanitizeHost (host : Str) : Str :=
  match host with
  | '*' :: '.' :: rest => "_wildcard.".toList ++ rest
  | other => other

/-- Modelled from the spec: for N hosts the base name is the sanitized
first host, suffixed with `+<N-1>` when N > 1. -/
def defaultBaseName (hosts : List Str) : Str :=
  match hosts with
  | [] => []
  | h :: rest =>
    sanitizeHost h ++
      (if rest.length > 0 then '+' :: Nat.toDigits 10 rest.length else [])

/-- Modelled from the spec: the certificate file is `<base>.pem`. -/
def defaultCertFile (hosts : List Str) : Str :=
  defaultBaseName hosts ++ ".pem".toList

/-- Modelled from the spec: the key file is `<base>-key.pem`. -/
def defaultKeyFile (hosts : List Str) : Str :=
  defaultBaseName hosts ++ "-key.pem".toList

/-! ## Linux distro detection (src/truststore/linux.rs lines 9-75)

`Path::exists` is abstracted as the predicate `fs`. -/

/-- The `LinuxDistro` enum of src/truststore/linux.rs. -/
inductive LinuxDistro where
  | RedHat
  | Debian
  | Arch
  | OpenSUSE
  | Unknown
deriving DecidableEq, Repr

/-- Anchor directory probed for (and used by) the Red Hat family. -/
def anchorsRedHat : Str := "/etc/pki/ca-trust/source/anchors/".toList

/-- Anchor directory probed for (and used by) the Debian family. -/
def anchorsDebian : Str := "/usr/local/share/ca-certificates/".toList

/-- Anchor directory probed for (and used by) Arch. -/
def anchorsArch : Str := "/etc/ca-certificates/trust-source/anchors/".toList

/-- Path probed for openSUSE (`detect` probes it without the trailing
slash). -/
def probeOpenSUSE : Str := "/usr/share/pki/trust/anchors".toList

/-- Anchor directory used by openSUSE (`cert_dir` returns it with the
trailing slash). -/
def anchorsOpenSUSE : Str := "/usr/share/pki/trust/anchors/".toList

/-- `LinuxDistro::detect`: probe the four anchor directories in the
fixed order Red Hat, Debian, Arch, openSUSE; `Unknown` when none
exists. -/
def detectDistro (fs : Str → Bool) : LinuxDistro :=
  if fs anchorsRedHat then .RedHat
  else if fs anchorsDebian then .Debian
  else if fs anchorsArch then .Arch
  else if fs probeOpenSUSE then .OpenSUSE
  else .Unknown

/-- `LinuxDistro::cert_dir`. -/
def certDir : LinuxDistro → Option Str
  | .RedHat => some anchorsRedHat
  | .Debian => some anchorsDebian
  | .Arch => some anchorsArch
  | .OpenSUSE => some anchorsOpenSUSE
  | .Unknown => none

/-- `LinuxDistro::cert_extension`. -/
def certExtension : LinuxDistro → Str
  | .RedHat | .OpenSUSE => "pem".toList
  | .Debian | .Arch => "crt".toList
  | .Unknown => "pem".toList

/-- `LinuxDistro::cert_path`: `format!("{}{}.{}", dir, cert_name, ext)`,
`None` for `Unknown`. -/
def distroCertPath (d : LinuxDistro) (certName : Str) : Option Str :=
  (certDir d).map fun dir => dir ++ certName ++ '.' :: certExtension d

/-! ## Java keytool invocation (`JavaTrustStore::exec_keytool`,
src/truststore/java.rs lines 74-102)

Child-process invocations are abstracted: `plainRun` is the outcome of
the direct keytool invocation, `sudoRun` the outcome of re-running the
same arguments under `sudo` with `JAVA_HOME` set. -/

/-- Outcome of one child-process invocation: `Command::output()` itself
failing, or the process completing with an exit status and stderr. -/
inductive SpawnOutcome where
  | spawnFailed (msg : Str)
  | completed (success : Bool) (stderr : Str)
deriving DecidableEq, Repr

/-- World state for `exec_keytool`: whether `detect_java()` finds a
configuration, whether the target is Unix, and the per-invocation
outcomes. -/
structure KeytoolWorld where
  javaFound : Bool
  unix : Bool
  plainRun : SpawnOutcome
  sudoRun : SpawnOutcome

/-- The stderr signature that triggers the elevated retry. -/
def fnfeSignature : Str := "java.io.FileNotFoundException".toList

/-- The condition under which src/truststore/java.rs re-runs keytool
with sudo: Java was found, the target is Unix, and the first invocation
completed unsuccessfully with the file-not-found signature on stderr. -/
def retryCondition (w : KeytoolWorld) : Bool :=
  w.javaFound && w.unix &&
    (match w.plainRun with
     | .completed success stderr => !success && containsSub fnfeSignature stderr
     | .spawnFailed _ => false)

/-- Mapping of one invocation's outcome to `exec_keytool`'s result type:
a spawn failure becomes `CommandFailed` with the given message text, a
completed process becomes `Ok(output)`. -/
def spawnResult (context : Str) (r : SpawnOutcome) : Except Error (Bool × Str) :=
  match r with
  | .spawnFailed m => .error (.CommandFailed (context ++ m))
  | .completed success stderr => .ok (success, stderr)

/-- `exec_keytool` from src/truststore/java.rs.  The first component
lists the elevation flags of the invocations actually performed, in
order (`false` = direct, `true` = sudo); the second is the returned
result. -/
def execKeytool (w : KeytoolWorld) : List Bool × Except Error (Bool × Str) :=
  if !w.javaFound then
    ([], .error (.TrustStore "Java not found. Please set JAVA_HOME".toList))
  else
    match w.plainRun with
    | .spawnFailed m =>
      ([false], .error (.CommandFailed ("Failed to execute keytool: ".toList ++ m)))
    | .completed success stderr =>
      if w.unix && !success && containsSub fnfeSignature stderr then
        match w.sudoRun with
        | .spawnFailed m =>
          ([false, true],
            .error (.CommandFailed ("Failed to execute keytool with sudo: ".toList ++ m)))
        | .completed s2 e2 => ([false, true], .ok (s2, e2))
      else ([false], .ok (success, stderr))

/-! ## Trust-store driver stubs (`impl TrustStore for ...`,
src/truststore/linux.rs lines 79-91, java.rs lines 112-124,
windows.rs lines 129-141)

These `TrustStore` impls are stubs: `install`/`uninstall` return
`Ok(())` unconditionally and the Linux/Java `check` returns
`Ok(false)`.  Store mutation is made visible by passing an abstract
store state `σ` through: the returned state is the input state. -/

/-- `LinuxTrustStore::check`: unconditionally `Ok(false)`. -/
def LinuxTrustStore.check : Except Error Bool := .ok false

/-- `LinuxTrustStore::install`: unconditionally `Ok(())`, leaving any
store state untouched. -/
def LinuxTrustStore.install {σ : Type} (store : σ) : Except Error (Unit × σ) :=
  .ok ((), store)

/-- `LinuxTrustStore::uninstall`: unconditionally `Ok(())`, leaving any
store state untouched. -/
def LinuxTrustStore.uninstall {σ : Type} (store : σ) : Except Error (Unit × σ) :=
  .ok ((), store)

/-- `JavaTrustStore::check`: unconditionally `Ok(false)`. -/
def JavaTrustStore.check : Except Error Bool := .ok false

/-- `JavaTrustStore::install`: unconditionally `Ok(())`, leaving any
store state untouched. -/
def JavaTrustStore.install {σ : Type} (store : σ) : Except Error (Unit × σ) :=
  .ok ((), store)

/-- `JavaTrustStore::uninstall`: unconditionally `Ok(())`, leaving any
store state untouched. -/
def JavaTrustStore.uninstall {σ : Type} (store : σ) : Except Error (Unit × σ) :=
  .ok ((), store)

/-- `WindowsTrustStore::install`: unconditionally `Ok(())`, leaving any
store state untouched. -/
def WindowsTrustStore.install {σ : Type} (store : σ) : Except Error (Unit × σ) :=
  .ok ((), store)

/-- `WindowsTrustStore::uninstall`: unconditionally `Ok(())`, leaving
any store state untouched. -/
def WindowsTrustStore.uninstall {σ : Type} (store : σ) : Except Error (Unit × σ) :=
  .ok ((), store)

end Fastcert

namespace Fastcert

/-! ### Characterization lemmas for the hostname matcher -/

theorem isLabelChar_iff (c : Char) :
    isLabelChar c = true ↔ (isInnerChar c = true ∧ c ≠ '.') := by
  constructor
  · intro h
    refine ⟨by simp [isInnerChar, h], ?_⟩
    rintro rfl
    simp [isLabelChar] at h
  · rintro ⟨h, hne⟩
    simp [isInnerChar] at h
    rcases h with h | h
    · exact h
    · exact absurd h hne

theorem star_not_isInnerChar : isInnerChar '*' = false := by decide

theorem matchTail_no_star {l : Str} (h : matchTail l = true) : '*' ∉ l := by
  induction l with
  | nil => simp
  | cons c cs ih =>
    cases cs with
    | nil =>
      simp only [matchTail] at h
      intro hm
      simp only [List.mem_singleton] at hm
      subst hm
      simp [isLabelChar] at h
    | cons c' cs' =>
      simp only [matchTail, Bool.and_eq_true] at h
      intro hm
      rcases List.mem_cons.mp hm with rfl | hm'
      · rw [star_not_isInnerChar] at h
        exact Bool.false_ne_true h.1
      · exact ih h.2 hm'

/-- Spec-side description of the regex core, written from the amended
claim's words: a nonempty sequence of alphanumerics, hyphens,
underscores, and dots whose first and last characters are not dots. -/
def CoreSpec (r : Str) : Prop :=
  r ≠ [] ∧ (∀ c ∈ r, isInnerChar c = true) ∧
    (∀ c, r.head? = some c → c ≠ '.') ∧
    (∀ c, r.getLast? = some c → c ≠ '.')

theorem matchTail_iff (l : Str) :
    matchTail l = true ↔
      (l ≠ [] ∧ (∀ c ∈ l, isInnerChar c = true) ∧
        (∀ c, l.getLast? = some c → c ≠ '.')) := by
  induction l with
  | nil => simp [matchTail]
  | cons c cs ih =>
    cases cs with
    | nil =>
      simp only [matchTail, isLabelChar_iff, List.getLast?_singleton]
      constructor
      · rintro ⟨hin, hne⟩
        exact ⟨by simp, by simpa using hin, by rintro x hx; cases hx; exact hne⟩
      · rintro ⟨-, hin, hlast⟩
        exact ⟨by simpa using hin, hlast c rfl⟩
    | cons c' cs' =>
      simp only [matchTail, Bool.and_eq_true, ih, List.getLast?_cons_cons]
      constructor
      · rintro ⟨hc, -, hin, hlast⟩
        refine ⟨by simp, ?_, hlast⟩
        intro x hx
        rcases List.mem_cons.mp hx with rfl | hx'
        · exact hc
        · exact hin x hx'
      · rintro ⟨-, hin, hlast⟩
        exact ⟨hin c (by simp), by simp, fun x hx => hin x (List.mem_cons_of_mem _ hx),
          hlast⟩

theorem matchCore_iff (l : Str) : matchCore l = true ↔ CoreSpec l := by
  cases l with
  | nil => simp [matchCore, CoreSpec]
  | cons c cs =>
    cases cs with
    | nil =>
      simp only [matchCore, isLabelChar_iff, CoreSpec, List.getLast?_singleton,
        List.head?_cons]
      constructor
      · rintro ⟨hin, hne⟩
        refine ⟨by simp, by simpa using hin, ?_, ?_⟩
        · rintro x hx; cases hx; exact hne
        · rintro x hx; cases hx; exact hne
      · rintro ⟨-, hin, hhead, -⟩
        exact ⟨by simpa using hin, hhead c rfl⟩
    | cons c' cs' =>
      simp only [matchCore, Bool.and_eq_true, isLabelChar_iff, matchTail_iff,
        CoreSpec, List.getLast?_cons_cons, List.head?_cons]
      constructor
      · rintro ⟨⟨hcin, hcne⟩, -, hin, hlast⟩
        refine ⟨by simp, ?_, ?_, hlast⟩
        · intro x hx
          rcases List.mem_cons.mp hx with rfl | hx'
          · exact hcin
          · exact hin x hx'
        · rintro x hx; cases hx; exact hcne
      · rintro ⟨-, hin, hhead, hlast⟩
        refine ⟨⟨hin c (by simp), hhead c rfl⟩, by simp, ?_, hlast⟩
        intro x hx
        exact hin x (List.mem_cons_of_mem _ hx)

/-- Spec-side description of the full amended hostname rule: an optional
leading `*.` followed by a `CoreSpec` remainder. -/
def HostnameSpec (l : Str) : Prop :=
  (∃ r, l = '*' :: '.' :: r ∧ CoreSpec r) ∨ CoreSpec l

theorem matchHostname_iff (l : Str) :
    matchHostname l = true ↔ HostnameSpec l := by
  unfold matchHostname HostnameSpec
  rw [Bool.or_eq_true, matchCore_iff]
  constructor
  · rintro (h | h)
    · left
      cases l with
      | nil => simp at h
      | cons a as =>
        cases as with
        | nil =>
          exfalso
          revert h
          split
          · rename_i heq
            simp at heq
          · simp
        | cons b bs =>
          by_cases ha : a = '*'
          · by_cases hb : b = '.'
            · subst ha; subst hb
              exact ⟨bs, rfl, (matchCore_iff bs).mp (by simpa using h)⟩
            · exfalso; revert h; subst ha
              split
              · rename_i heq
                rw [List.cons.injEq, List.cons.injEq] at heq
                exact absurd heq.2.1 hb
              · simp
          · exfalso; revert h
            split
            · rename_i heq
              rw [List.cons.injEq] at heq
              exact absurd heq.1 ha
            · simp
    · exact Or.inr h
  · rintro (⟨r, rfl, hr⟩ | h)
    · exact Or.inl ((matchCore_iff r).mpr hr)
    · exact Or.inr h

theorem matchCore_no_star {l : Str} (h : matchCore l = true) : '*' ∉ l := by
  cases l with
  | nil => simp
  | cons c cs =>
    cases cs with
    | nil =>
      simp only [matchCore] at h
      intro hm
      simp only [List.mem_singleton] at hm
      subst hm
      simp [isLabelChar] at h
    | cons c' cs' =>
      simp only [matchCore, Bool.and_eq_true] at h
      intro hm
      rcases List.mem_cons.mp hm with rfl | hm'
      · rw [isLabelChar_iff] at h
        exact absurd h.1.1 (by rw [star_not_isInnerChar]; simp)
      · exact matchTail_no_star h.2 hm'

theorem validateHostname_ok_iff (l : Str) :
    validateHostname l = .ok () ↔ matchHostname l = true := by
  unfold validateHostname
  split
  · rename_i h; simp [h]
  · rename_i h
    constructor
    · intro hok; exact Except.noConfusion hok
    · intro ht; exact absurd ht h

/-- The character-set reading of the C3 claim, written from its words:
an optional leading `*.` followed by one or more characters drawn from
alphanumerics, hyphens, underscores, and dots. -/
def ClaimedHostnameSpec (l : Str) : Prop :=
  (∃ r, l = '*' :: '.' :: r ∧ r ≠ [] ∧ ∀ c ∈ r, isInnerChar c = true)
  ∨ (l ≠ [] ∧ ∀ c ∈ l, isInnerChar c = true)

/-- C2: hostname validation accepts a single leading wildcard label
(`*.example.com`, `*.sub.example.com`), rejects `*.*.example.com`, and
more generally any accepted name containing `*` must consist of a single
leading `*.` label followed by a wildcard-free remainder. -/
theorem validateHostname_wildcard_policy :
    validateHostname "*.example.com".toList = .ok ()
    ∧ validateHostname "*.sub.example.com".toList = .ok ()
    ∧ validateHostname "*.*.example.com".toList =
        .error (.InvalidHostname "*.*.example.com".toList)
    ∧ ∀ l : Str, '*' ∈ l → validateHostname l = .ok () →
        ∃ r, l = '*' :: '.' :: r ∧ '*' ∉ r := by
  refine ⟨by rfl, by rfl, by rfl, ?_⟩
  intro l hmem hok
  have hmatch : matchHostname l = true := (validateHostname_ok_iff l).mp hok
  rcases (matchHostname_iff l).mp hmatch with ⟨r, rfl, hr⟩ | hcore
  · refine ⟨r, rfl, ?_⟩
    intro hstar
    have hin := hr.2.1 '*' hstar
    rw [star_not_isInnerChar] at hin
    exact Bool.false_ne_true hin
  · exfalso
    have hin := hcore.2.1 '*' hmem
    rw [star_not_isInnerChar] at hin
    exact Bool.false_ne_true hin

theorem validateHostname_wildcard_policy_witness :
    ('*' ∈ "*.dev".toList) ∧ validateHostname "*.dev".toList = .ok ()
    ∧ ∃ r, "*.dev".toList = '*' :: '.' :: r ∧ '*' ∉ r :=
  ⟨by decide, by rfl,
    validateHostname_wildcard_policy.2.2.2 "*.dev".toList (by decide) (by rfl)⟩

/-- C3 counterexample: `"."` and `"a."` are nonempty strings built only
from the claimed character set (alphanumerics, hyphens, underscores,
dots), yet `validate_hostname` rejects them, because the regex forbids a
leading or trailing dot. -/
theorem validateHostname_charset_counterexample :
    ClaimedHostnameSpec ".".toList
    ∧ validateHostname ".".toList = .error (.InvalidHostname ".".toList)
    ∧ ClaimedHostnameSpec "a.".toList
    ∧ validateHostname "a.".toList = .error (.InvalidHostname "a.".toList) := by
  exact ⟨Or.inr ⟨by decide, by decide⟩, by rfl, Or.inr ⟨by decide, by decide⟩, by rfl⟩

/-- C3 (amended): `validate_hostname` returns `Ok` exactly for an
optional leading `*.` followed by a nonempty sequence of alphanumerics,
hyphens, underscores, and dots whose first and last characters are not
dots; every other string, the empty string included, yields
`Err(InvalidHostname)` carrying the input. -/
theorem validateHostname_charset :
    ∀ l : Str, (validateHostname l = .ok () ↔ HostnameSpec l)
      ∧ (¬ HostnameSpec l → validateHostname l = .error (.InvalidHostname l)) := by
  intro l
  have h1 := (validateHostname_ok_iff l).trans (matchHostname_iff l)
  refine ⟨h1, ?_⟩
  intro hns
  have hfalse : matchHostname l = false := by
    rw [← Bool.not_eq_true]
    intro hm
    exact hns ((matchHostname_iff l).mp hm)
  unfold validateHostname
  rw [hfalse]
  simp

theorem validateHostname_charset_witness :
    validateHostname "example.com".toList = .ok ()
    ∧ HostnameSpec "example.com".toList
    ∧ validateHostname "".toList = .error (.InvalidHostname "".toList) := by
  refine ⟨by rfl, (validateHostname_charset "example.com".toList).1.mp (by rfl), ?_⟩
  refine (validateHostname_charset "".toList).2 ?_
  rintro (⟨r, heq, -⟩ | ⟨hne, -⟩)
  · simp at heq
  · exact hne rfl

/-- C1: `HostType::parse` is total — it returns `Ok` on every input,
agreeing with the spec-side classification — and classifies by the fixed
precedence IP literal, then email (`@` and `.`), then URI (`://`), then
DNS name, for every IP-parser oracle. -/
theorem hostTypeParse_total_precedence :
    ∀ (ipParse : Str → Option IpAddr) (host : Str),
      hostTypeParse ipParse host = .ok (specClassify ipParse host)
      ∧ (∀ ip, ipParse host = some ip →
          hostTypeParse ipParse host = .ok (.IpAddress ip))
      ∧ (ipParse host = none → '@' ∈ host → '.' ∈ host →
          hostTypeParse ipParse host = .ok (.Email host))
      ∧ (ipParse host = none → ¬ ('@' ∈ host ∧ '.' ∈ host) →
          containsSub "://".toList host = true →
          hostTypeParse ipParse host = .ok (.Uri host))
      ∧ (ipParse host = none → ¬ ('@' ∈ host ∧ '.' ∈ host) →
          containsSub "://".toList host = false →
          hostTypeParse ipParse host = .ok (.DnsName host)) := by
  intro ipParse host
  have hbridge : (host.contains '@' && host.contains '.') = true ↔
      ('@' ∈ host ∧ '.' ∈ host) := by
    simp [List.contains]
  refine ⟨?_, ?_, ?_, ?_, ?_⟩
  · unfold hostTypeParse specClassify
    cases ipParse host with
    | some ip => rfl
    | none =>
      by_cases hm : '@' ∈ host ∧ '.' ∈ host
      · rw [if_pos (hbridge.mpr hm), if_pos hm]
      · rw [if_neg (fun hb => hm (hbridge.mp hb)), if_neg hm]
        cases hc : containsSub "://".toList host <;> simp [hc]
  · intro ip hip
    unfold hostTypeParse
    rw [hip]
  · intro hnone hat hdot
    unfold hostTypeParse
    rw [hnone]
    simp only [hbridge.mpr ⟨hat, hdot⟩, if_true]
  · intro hnone hm hsub
    unfold hostTypeParse
    rw [hnone]
    simp only []
    rw [if_neg (fun hb : (host.contains '@' && host.contains '.') = true =>
      hm (hbridge.mp hb)), if_pos hsub]
  · intro hnone hm hsub
    unfold hostTypeParse
    rw [hnone]
    simp only []
    rw [if_neg (fun hb : (host.contains '@' && host.contains '.') = true =>
      hm (hbridge.mp hb)), if_neg (by rw [hsub]; exact Bool.false_ne_true)]

theorem hostTypeParse_total_precedence_witness :
    hostTypeParse (fun _ => none) "user@example.com".toList =
      .ok (.Email "user@example.com".toList)
    ∧ hostTypeParse (fun _ => none) "https://example.com".toList =
      .ok (.Uri "https://example.com".toList)
    ∧ hostTypeParse (fun _ => none) "example.com".toList =
      .ok (.DnsName "example.com".toList)
    ∧ hostTypeParse (fun _ => some (.V4 127 0 0 1)) "127.0.0.1".toList =
      .ok (.IpAddress (.V4 127 0 0 1)) := by
  refine ⟨?_, ?_, ?_, ?_⟩
  · exact (hostTypeParse_total_precedence (fun _ => none)
      "user@example.com".toList).2.2.1 rfl (by decide) (by decide)
  · exact (hostTypeParse_total_precedence (fun _ => none)
      "https://example.com".toList).2.2.2.1 rfl (by decide) (by decide)
  · exact (hostTypeParse_total_precedence (fun _ => none)
      "example.com".toList).2.2.2.2 rfl (by decide) (by decide)
  · exact (hostTypeParse_total_precedence (fun _ => some (.V4 127 0 0 1))
      "127.0.0.1".toList).2.1 _ rfl

/-- C9: with `TRUST_STORES` unset the enabled stores are exactly
`["system", "nss", "java"]`; when set, the result is the comma-separated
pieces trimmed, lowercased, with empty entries dropped (so an empty or
all-comma value enables nothing), and `is_store_enabled` holds exactly
when the lowercased query occurs in that list. -/
theorem getEnabledStores_spec :
    getEnabledStores none = ["system".toList, "nss".toList, "java".toList]
    ∧ getEnabledStores (some "".toList) = []
    ∧ getEnabledStores (some ",,".toList) = []
    ∧ (∀ v s, s ∈ getEnabledStores (some v) ↔
        ((∃ p ∈ splitComma v, s = lowerStr (trimStr p)) ∧ s ≠ []))
    ∧ (∀ env s, isStoreEnabled env s = true ↔
        lowerStr s ∈ getEnabledStores env) := by
  refine ⟨rfl, rfl, rfl, ?_, ?_⟩
  · intro v s
    simp only [getEnabledStores, List.mem_filter, List.mem_map,
      Bool.not_eq_true', ← List.isEmpty_iff, Bool.not_eq_true]
    constructor
    · rintro ⟨⟨p, hp, rfl⟩, hne⟩
      exact ⟨⟨p, hp, rfl⟩, by simpa using hne⟩
    · rintro ⟨⟨p, hp, rfl⟩, hne⟩
      exact ⟨⟨p, hp, rfl⟩, by simpa using hne⟩
  · intro env s
    simp [isStoreEnabled, List.contains]

theorem getEnabledStores_spec_witness :
    ("nss".toList ∈ getEnabledStores (some " NSS , system".toList) ↔
      ((∃ p ∈ splitComma " NSS , system".toList,
          "nss".toList = lowerStr (trimStr p)) ∧ "nss".toList ≠ []))
    ∧ isStoreEnabled (some " NSS , system".toList) "nss".toList = true :=
  ⟨getEnabledStores_spec.2.2.2.1 " NSS , system".toList "nss".toList,
    (getEnabledStores_spec.2.2.2.2 (some " NSS , system".toList)
      "nss".toList).mpr (by decide)⟩

/-- C4: in `install_linux`/`install_macos`, a failure of the enabled
system store driver is the operation's failure (with no optional target
attempted); when the system target succeeds or is not enabled (and the
CA unique name resolves), NSS and Java failures never fail the
operation — it returns success, recording a warning for a failed,
enabled, available NSS target. -/
theorem install_partial_failure_policy :
    (∀ (w : DispatchWorld) (e : Error),
        isStoreEnabled w.env "system".toList = true → w.sysInstall = .error e →
        installLinux w = (.error e, []) ∧ installMacos w = (.error e, []))
    ∧ (∀ (w : DispatchWorld) (nm : Str),
        w.caUnique = .ok nm →
        (isStoreEnabled w.env "system".toList = false ∨ w.sysInstall = .ok ()) →
        (installLinux w).1 = .ok () ∧ (installMacos w).1 = .ok ())
    ∧ (∀ (w : DispatchWorld) (nm : Str) (e : Error),
        w.caUnique = .ok nm →
        (isStoreEnabled w.env "system".toList = false ∨ w.sysInstall = .ok ()) →
        isStoreEnabled w.env "nss".toList = true → w.nssAvailable = true →
        w.nssInstall = .error e →
        "nss".toList ∈ (installLinux w).2 ∧ "nss".toList ∈ (installMacos w).2) := by
  refine ⟨?_, ?_, ?_⟩
  · intro w e hen hsys
    have h : installLinux w = (.error e, []) := by
      unfold installLinux
      rw [hen, if_pos rfl, hsys]
    exact ⟨h, h⟩
  · intro w nm hca hsys
    have hopt : (installOptionalStores w).1 = .ok () := by
      unfold installOptionalStores
      rw [hca]
    have h : (installLinux w).1 = .ok () := by
      unfold installLinux
      rcases hsys with hdis | hok
      · rw [hdis, if_neg (by simp)]
        exact hopt
      · by_cases hen : isStoreEnabled w.env "system".toList = true
        · rw [hen, if_pos rfl, hok]
          exact hopt
        · rw [if_neg hen]
          exact hopt
    exact ⟨h, h⟩
  · intro w nm e hca hsys hen hav hnss
    have hopt : "nss".toList ∈ (installOptionalStores w).2 := by
      unfold installOptionalStores
      rw [hca, hen, hav, hnss]
      simp
    have h : "nss".toList ∈ (installLinux w).2 := by
      unfold installLinux
      rcases hsys with hdis | hok
      · rw [hdis, if_neg (by simp)]
        exact hopt
      · by_cases hsen : isStoreEnabled w.env "system".toList = true
        · rw [hsen, if_pos rfl, hok]
          exact hopt
        · rw [if_neg hsen]
          exact hopt
    exact ⟨h, h⟩

theorem install_partial_failure_policy_witness :
    (installLinux
      { env := none, sysInstall := .error (.TrustStore "denied".toList),
        caUnique := .ok "fastcert root".toList, nssAvailable := true,
        nssInstall := .ok (), javaAvailable := true, javaInstall := .ok () } =
      (.error (.TrustStore "denied".toList), []))
    ∧ ((installLinux
      { env := none, sysInstall := .ok (),
        caUnique := .ok "fastcert root".toList, nssAvailable := true,
        nssInstall := .error (.TrustStore "nss down".toList),
        javaAvailable := true, javaInstall := .ok () }).1 = .ok ())
    ∧ "nss".toList ∈ (installLinux
      { env := none, sysInstall := .ok (),
        caUnique := .ok "fastcert root".toList, nssAvailable := true,
        nssInstall := .error (.TrustStore "nss down".toList),
        javaAvailable := true, javaInstall := .ok () }).2 :=
  ⟨(install_partial_failure_policy.1 _ _ (by decide) rfl).1,
    (install_partial_failure_policy.2.1 _ "fastcert root".toList rfl
      (Or.inr rfl)).1,
    (install_partial_failure_policy.2.2 _ "fastcert root".toList _ rfl
      (Or.inr rfl) (by decide) rfl rfl).1⟩

/-- C5: over the fixed-name files `rootCA.pem` and `rootCA-key.pem` in
the root directory, readiness loads when both are present, creates both
when both are absent, and fails with `CAKeyMissing`/`CARootNotFound`
exactly when one file is present and the other absent. -/
theorem ensureReady_half_state :
    ∀ (rootPath : Str) (fs : Str → Bool),
      (fs (caCertPath rootPath) = true → fs (caKeyPath rootPath) = true →
        ensureReady rootPath fs = .loaded)
      ∧ (fs (caCertPath rootPath) = false → fs (caKeyPath rootPath) = false →
        ensureReady rootPath fs = .created)
      ∧ (fs (caCertPath rootPath) = true → fs (caKeyPath rootPath) = false →
        ensureReady rootPath fs = .failed .CAKeyMissing)
      ∧ (fs (caCertPath rootPath) = false → fs (caKeyPath rootPath) = true →
        ensureReady rootPath fs = .failed .CARootNotFound)
      ∧ ((∃ e, ensureReady rootPath fs = .failed e) ↔
          ¬ fs (caCertPath rootPath) = fs (caKeyPath rootPath)) := by
  intro rootPath fs
  cases hc : fs (caCertPath rootPath) <;> cases hk : fs (caKeyPath rootPath) <;>
    simp [ensureReady, hc, hk]

theorem ensureReady_half_state_witness :
    ensureReady "/ca".toList (fun p => p == caCertPath "/ca".toList) =
      .failed .CAKeyMissing :=
  (ensureReady_half_state "/ca".toList
    (fun p => p == caCertPath "/ca".toList)).2.2.1 (by decide) (by decide)

/-- C6: default output naming — `["example.com"]` yields
`example.com.pem` / `example.com-key.pem`, three hosts starting with
`multi.local` yield `multi.local+2.pem` / `multi.local+2-key.pem`,
`["*.wildcard.local"]` yields `_wildcard.wildcard.local.pem`; in
general a single host carries no numeric suffix and N hosts carry
`+<N-1>`. -/
theorem defaultNaming_spec :
    defaultCertFile ["example.com".toList] = "example.com.pem".toList
    ∧ defaultKeyFile ["example.com".toList] = "example.com-key.pem".toList
    ∧ defaultCertFile
        ["multi.local".toList, "multi2.local".toList, "multi3.local".toList] =
        "multi.local+2.pem".toList
    ∧ defaultKeyFile
        ["multi.local".toList, "multi2.local".toList, "multi3.local".toList] =
        "multi.local+2-key.pem".toList
    ∧ defaultCertFile ["*.wildcard.local".toList] =
        "_wildcard.wildcard.local.pem".toList
    ∧ defaultKeyFile ["*.wildcard.local".toList] =
        "_wildcard.wildcard.local-key.pem".toList
    ∧ (∀ h : Str, defaultCertFile [h] = sanitizeHost h ++ ".pem".toList)
    ∧ (∀ (h h' : Str) (t : List Str),
        defaultCertFile (h :: h' :: t) =
          sanitizeHost h ++ '+' :: Nat.toDigits 10 (t.length + 1) ++
            ".pem".toList) := by
  refine ⟨by decide, by decide, by decide, by decide, by decide, by decide, ?_, ?_⟩
  · intro h
    simp [defaultCertFile, defaultBaseName]
  · intro h h' t
    simp [defaultCertFile, defaultBaseName]

/-- C7: distro detection probes Red Hat, Debian, Arch, openSUSE anchor
directories in that fixed order (`Unknown` when none exists), and
`cert_path(name)` is the detected distro's anchor directory joined with
`<name>.pem` (Red Hat, openSUSE) or `<name>.crt` (Debian, Arch), `None`
for `Unknown`. -/
theorem detectDistro_certPath_spec :
    ∀ (fs : Str → Bool) (name : Str),
      (fs anchorsRedHat = true → detectDistro fs = .RedHat)
      ∧ (fs anchorsRedHat = false → fs anchorsDebian = true →
          detectDistro fs = .Debian)
      ∧ (fs anchorsRedHat = false → fs anchorsDebian = false →
          fs anchorsArch = true → detectDistro fs = .Arch)
      ∧ (fs anchorsRedHat = false → fs anchorsDebian = false →
          fs anchorsArch = false → fs probeOpenSUSE = true →
          detectDistro fs = .OpenSUSE)
      ∧ (fs anchorsRedHat = false → fs anchorsDebian = false →
          fs anchorsArch = false → fs probeOpenSUSE = false →
          detectDistro fs = .Unknown)
      ∧ distroCertPath .RedHat name =
          some (anchorsRedHat ++ name ++ ".pem".toList)
      ∧ distroCertPath .Debian name =
          some (anchorsDebian ++ name ++ ".crt".toList)
      ∧ distroCertPath .Arch name =
          some (anchorsArch ++ name ++ ".crt".toList)
      ∧ distroCertPath .OpenSUSE name =
          some (anchorsOpenSUSE ++ name ++ ".pem".toList)
      ∧ distroCertPath .Unknown name = none := by
  intro fs name
  refine ⟨?_, ?_, ?_, ?_, ?_, rfl, rfl, rfl, rfl, rfl⟩
  · intro h1
    simp [detectDistro, h1]
  · intro h1 h2
    simp [detectDistro, h1, h2]
  · intro h1 h2 h3
    simp [detectDistro, h1, h2, h3]
  · intro h1 h2 h3 h4
    simp [detectDistro, h1, h2, h3, h4]
  · intro h1 h2 h3 h4
    simp [detectDistro, h1, h2, h3, h4]

theorem detectDistro_certPath_spec_witness :
    detectDistro (fun p => p == anchorsDebian) = .Debian
    ∧ distroCertPath .Debian "fastcert".toList =
        some (anchorsDebian ++ "fastcert".toList ++ ".crt".toList) :=
  ⟨(detectDistro_certPath_spec (fun p => p == anchorsDebian)
      "fastcert".toList).2.1 (by decide) (by decide),
    (detectDistro_certPath_spec (fun p => p == anchorsDebian)
      "fastcert".toList).2.2.2.2.2.2.1⟩

/-- C8: `exec_keytool` performs at most two invocations; the elevated
re-run happens exactly under the retry condition (Unix, unsuccessful
first run, `FileNotFoundException` on stderr), in which case the second
outcome is returned; in every other case the first outcome is returned
as-is. -/
theorem execKeytool_retry_once :
    ∀ w : KeytoolWorld,
      (execKeytool w).1.length ≤ 2
      ∧ ((execKeytool w).1 = [false, true] ↔ retryCondition w = true)
      ∧ (retryCondition w = true →
          (execKeytool w).2 =
            spawnResult "Failed to execute keytool with sudo: ".toList w.sudoRun)
      ∧ (retryCondition w = false → w.javaFound = true →
          (execKeytool w).2 =
            spawnResult "Failed to execute keytool: ".toList w.plainRun) := by
  intro w
  obtain ⟨jf, ux, pr, sr⟩ := w
  cases jf
  · simp [execKeytool, retryCondition]
  · cases pr with
    | spawnFailed m =>
      simp [execKeytool, retryCondition, spawnResult]
    | completed s e =>
      cases ux <;> cases s <;>
        by_cases hc : containsSub fnfeSignature e = true <;>
        cases sr <;>
        simp_all [execKeytool, retryCondition, spawnResult]

theorem execKeytool_retry_once_witness :
    retryCondition
      { javaFound := true, unix := true,
        plainRun := .completed false
          "keytool error: java.io.FileNotFoundException: cacerts".toList,
        sudoRun := .completed true [] } = true
    ∧ (execKeytool
      { javaFound := true, unix := true,
        plainRun := .completed false
          "keytool error: java.io.FileNotFoundException: cacerts".toList,
        sudoRun := .completed true [] }).2 =
        spawnResult "Failed to execute keytool with sudo: ".toList
          (.completed true []) :=
  ⟨by decide,
    (execKeytool_retry_once
      { javaFound := true, unix := true,
        plainRun := .completed false
          "keytool error: java.io.FileNotFoundException: cacerts".toList,
        sudoRun := .completed true [] }).2.2.1 (by decide)⟩

/-- C10: for every store state, the Linux, Java, and Windows drivers'
`install`/`uninstall` return success and leave the state unchanged, and
the Linux and Java `check` always return `Ok(false)`. -/
theorem truststore_driver_stubs :
    ∀ (σ : Type) (store : σ),
      LinuxTrustStore.check = (.ok false : Except Error Bool)
      ∧ JavaTrustStore.check = (.ok false : Except Error Bool)
      ∧ LinuxTrustStore.install store = .ok ((), store)
      ∧ LinuxTrustStore.uninstall store = .ok ((), store)
      ∧ JavaTrustStore.install store = .ok ((), store)
      ∧ JavaTrustStore.uninstall store = .ok ((), store)
      ∧ WindowsTrustStore.install store = .ok ((), store)
      ∧ WindowsTrustStore.uninstall store = .ok ((), store) :=
  fun _ _ => ⟨rfl, rfl, rfl, rfl, rfl, rfl, rfl, rfl⟩

theorem truststore_driver_stubs_witness :
    LinuxTrustStore.install (0 : Nat) = .ok ((), 0)
    ∧ WindowsTrustStore.uninstall (0 : Nat) = .ok ((), 0) :=
  ⟨(truststore_driver_stubs Nat 0).2.2.1,
    (truststore_driver_stubs Nat 0).2.2.2.2.2.2.2⟩

end Fastcert
